import Mathlib

/-!
evcc: Zendure meter and Home Assistant discovery handlers

A shallow embedding of `meter/zendure.go` and `util/homeassistant/service.go`.

Conventions of the embedding:

* A Go `string` is a list of characters (`Str`).  The string operations used by the
  source (`+`, `==`, `<`, `strings.HasPrefix`, `strings.Split`, `strings.TrimSuffix`)
  are written out on lists.  Go compares strings byte by byte; on well-formed UTF-8 that
  is the lexicographic order of the code point sequences, which is the order used here.
* A slice of strings is a list; the nil slice and the empty slice are both `[]`.
* A Go `error` is a value of `Error`: either an error handed over by a collaborator
  (kept abstract, identified by a tag) or an error built locally from a message.
* A `float64` is represented by the rational number it denotes (`Float64`); no infinity
  or NaN arises here.  The conversion `float64(n)` of an integer and the subtraction of two
  floats round their exact result to the nearest binary64 number, ties to even
  (`roundFloat64`): 53 significant bits, spacing never finer than `2^-1074`.  Results of
  magnitude `2^1024` and more, which overflow, do not arise from 64-bit integer readings.
* Calls to remote collaborators are made explicit: the Zendure gateway is a function
  from the number of fetches done so far to the outcome of the next one, and the HTTP
  handlers return, next to their response, the list of hub calls they made.
* Functions and types of packages that are not part of the two files are parameters.
-/

namespace Evcc

/-- Go strings, as character sequences. -/
abbrev Str := List Char

/-- Turn a literal into a Go string. -/
def str (s : String) : Str := s.toList

/-- Go error values: `external` is an error produced by a collaborator (gateway, hub,
decoder), `text` is an error made by `errors.New` or `fmt.Errorf` with its message. -/
inductive Error where
  | external (tag : Nat)
  | text (msg : Str)
  deriving DecidableEq, Repr

/-- The built-in string comparison `a < b` of Go: lexicographic, a proper initial
segment being smaller. -/
def strLt : Str → Str → Bool
  | [], [] => false
  | [], _ :: _ => true
  | _ :: _, [] => false
  | a :: as, b :: bs => if a < b then true else if b < a then false else strLt as bs

/-- The comparison `a <= b` of Go strings, that is `!(b < a)`. -/
def StrLe (a b : Str) : Prop := strLt b a = false

instance StrLe.decidable : DecidableRel StrLe := fun a b =>
  inferInstanceAs (Decidable (strLt b a = false))

/-- The call `strings.HasPrefix(s, pre)`. -/
def HasPrefix (s pre : Str) : Bool := pre.isPrefixOf s

/-- The call `strings.HasSuffix(s, suffix)`. -/
def HasSuffix (s suffix : Str) : Bool := suffix.isSuffixOf s

/-- The call `strings.TrimSuffix(s, suffix)`. -/
def TrimSuffix (s suffix : Str) : Str :=
  if HasSuffix s suffix then s.take (s.length - suffix.length) else s

/-- The call `strings.Split(s, sep)` for a separator of one character: the pieces of `s`
between the occurrences of `sep`, one more piece than there are occurrences. -/
def Split (s : Str) (sep : Char) : List Str :=
  match s with
  | [] => [[]]
  | c :: cs =>
    if c = sep then [] :: Split cs sep
    else
      match Split cs sep with
      | [] => [[c]]
      | piece :: rest => (c :: piece) :: rest

/-- The call `slices.Contains(xs, x)`. -/
def Contains (xs : List Str) (x : Str) : Bool := decide (x ∈ xs)

/-- The statement `seen[key] = struct{}{}` on a `map[string]struct{}`: the key set is
kept as a list without repetition. -/
def setKey (seen : List Str) (key : Str) : List Str :=
  if key ∈ seen then seen else key :: seen

/-- The expression `slices.Sorted(maps.Keys(seen))`: the keys in ascending order. -/
def sortedKeys (seen : List Str) : List Str := seen.insertionSort StrLe

namespace homeassistant

/-- One element of the hub's state list; only the entity identifier is read. -/
structure State where
  EntityId : Str
  deriving DecidableEq, Repr

/-- One element of the hub's service list: a domain and the keys of its `Services` map,
in the order a `range` over the map happens to visit them. -/
structure ServiceDomain where
  Domain : Str
  Services : List Str
  deriving DecidableEq, Repr

/-- A hub connection, as far as the handlers use it: the outcome of `GetStates()` and of
`GetServices()`. -/
structure Connection where
  GetStates : Except Error (List State)
  GetServices : Except Error (List ServiceDomain)

/-- The query of a request: the values `Query().Get` yields for `uri` and `domain`, which
are empty when the parameter is absent. -/
structure Request where
  uri : Str
  domain : Str

/-- What the handlers use from outside the file: `util.DefaultScheme` and
`NewConnection` (with the logger and the empty home argument fixed). -/
structure Env where
  DefaultScheme : Str → Str → Str
  NewConnection : Str → Except Error Connection

/-- The remote calls a handler can make. -/
inductive HubCall where
  | GetStates
  | GetServices
  deriving DecidableEq, Repr

/-- What a handler writes: `jsonError` (status code and error) or `jsonWrite` of a string
list after setting the `Cache-control` header. -/
inductive Response where
  | jsonError (status : Nat) (err : Error)
  | jsonWrite (cacheControl : Str) (data : List Str)
  deriving DecidableEq, Repr

/-- The constant `http.StatusBadRequest`. -/
def StatusBadRequest : Nat := 400

/-- The header value set before a successful write. -/
def maxAge : Str := str "max-age=300"

/-- The function `connectionFromRequest`. -/
def connectionFromRequest (env : Env) (req : Request) : Except Error Connection :=
  let uri := env.DefaultScheme (TrimSuffix req.uri (str "/")) (str "http")
  if uri = str "" then .error (Error.text (str "missing uri"))
  else env.NewConnection uri

/-- The function `domainsFromRequest`: the comma-separated `domain` parameter, or the nil
slice when it is empty. -/
def domainsFromRequest (req : Request) : List Str :=
  if req.domain ≠ str "" then Split req.domain ',' else []

/-- The function `matchesDomains`. -/
def matchesDomains (entityID : Str) (domains : List Str) : Bool :=
  if domains.length = 0 then true
  else domains.any (fun d => HasPrefix entityID (d ++ str "."))

/-- The function `getEntities`: response and hub calls made. -/
def getEntities (env : Env) (req : Request) : Response × List HubCall :=
  match connectionFromRequest env req with
  | .error err => (Response.jsonError StatusBadRequest err, [])
  | .ok conn =>
    match conn.GetStates with
    | .error err => (Response.jsonError StatusBadRequest err, [HubCall.GetStates])
    | .ok states =>
      let domains := domainsFromRequest req
      let result := states.foldl
        (fun result e => if matchesDomains e.EntityId domains then result ++ [e.EntityId] else result) []
      (Response.jsonWrite maxAge result, [HubCall.GetStates])

/-- The first loop of `getServices`: the keys added for the service catalog. -/
def collectServices (domains : List Str) (svcRes : List ServiceDomain) (seen : List Str) :
    List Str :=
  svcRes.foldl
    (fun seen sd =>
      if domains.length = 0 ∨ Contains domains sd.Domain = true then
        sd.Services.foldl (fun seen svc => setKey seen (sd.Domain ++ str "." ++ svc)) seen
      else seen)
    seen

/-- The second loop of `getServices`: the keys added for the entity states. -/
def collectStates (domains : List Str) (states : List State) (seen : List Str) : List Str :=
  states.foldl
    (fun seen e => if matchesDomains e.EntityId domains then setKey seen e.EntityId else seen)
    seen

/-- The function `getServices`: response and hub calls made. -/
def getServices (env : Env) (req : Request) : Response × List HubCall :=
  match connectionFromRequest env req with
  | .error err => (Response.jsonError StatusBadRequest err, [])
  | .ok conn =>
    let domains := domainsFromRequest req
    let seen : List Str := []
    match conn.GetServices with
    | .error err => (Response.jsonError StatusBadRequest err, [HubCall.GetServices])
    | .ok svcRes =>
      let seen := collectServices domains svcRes seen
      if domains.length > 0 then
        match conn.GetStates with
        | .ok states =>
          (Response.jsonWrite maxAge (sortedKeys (collectStates domains states seen)),
            [HubCall.GetServices, HubCall.GetStates])
        | .error _ =>
          (Response.jsonWrite maxAge (sortedKeys seen), [HubCall.GetServices, HubCall.GetStates])
      else
        (Response.jsonWrite maxAge (sortedKeys seen), [HubCall.GetServices])

end homeassistant

namespace zendure

/-- The record `Data()` returns, as far as the meter reads it.  The declaration is in the
package `meter/zendure`; the readings are Go integers, of magnitude at most `2^63`. -/
structure TelemetrySnapshot where
  SolarInputPower : Int
  PackInputPower : Int
  OutputPackPower : Int
  ElectricLevel : Int
  deriving DecidableEq, Repr

/-- A gateway connection, as far as the meter uses it: `Data k` is the outcome of the call
`Data()` made when `k` calls were made before. -/
structure Connection where
  Data : Nat → Except Error TelemetrySnapshot

end zendure

namespace meter

/-- The values of type `float64`, each represented by the number it denotes. -/
structure Float64 where
  val : ℚ
  deriving DecidableEq

/-- The float constant `0`. -/
instance Float64.instZero : Zero Float64 := ⟨⟨0⟩⟩

/-- The nearest integer to a non-negative rational, the even one of the two at a tie. -/
def roundHalfEven (s : ℚ) : Int :=
  let f := ⌊s⌋
  let r := s - f
  if r < 1 / 2 then f else if 1 / 2 < r then f + 1 else if f % 2 = 0 then f else f + 1

/-- The exponent `e` such that binary64 numbers of magnitude near `a` are the multiples of
`2^e`: 53 significant bits, and never finer than the subnormal spacing `2^-1074`. -/
def ulpExponent (a : ℚ) : Int := max (Int.log 2 a - 52) (-1074)

/-- Rounding of an exact result to binary64, to nearest with ties to even. -/
def roundFloat64 (x : ℚ) : ℚ :=
  if x = 0 then 0
  else
    let e := ulpExponent |x|
    let q := roundHalfEven (|x| / (2 : ℚ) ^ e)
    (if x < 0 then -1 else 1) * (q : ℚ) * (2 : ℚ) ^ e

/-- The conversion `float64(n)` of an integer. -/
def float64 (n : Int) : Float64 := ⟨roundFloat64 (n : ℚ)⟩

/-- The subtraction `a - b` of two floats. -/
def Float64.sub (a b : Float64) : Float64 := ⟨roundFloat64 (a.val - b.val)⟩

/-- The struct `Zendure`. -/
structure Zendure where
  usage : Str
  conn : zendure.Connection

/-- A method returning `(float64, error)` that may fetch from the gateway: from the
number of fetches made so far to the returned pair and the number of fetches afterwards. -/
abbrev Reading := Nat → (Float64 × Option Error) × Nat

/-- The method `CurrentPower`. -/
def Zendure.CurrentPower (c : Zendure) : Reading := fun fetches =>
  match c.conn.Data fetches with
  | .error err => ((0, some err), fetches + 1)
  | .ok res =>
    if c.usage = str "pv" then
      ((float64 res.SolarInputPower, none), fetches + 1)
    else if c.usage = str "battery" then
      ((Float64.sub (float64 res.PackInputPower) (float64 res.OutputPackPower), none),
        fetches + 1)
    else
      ((0, some (Error.text (str "invalid usage: " ++ c.usage))), fetches + 1)

/-- The method `soc`. -/
def Zendure.soc (c : Zendure) : Reading := fun fetches =>
  match c.conn.Data fetches with
  | .error err => ((0, some err), fetches + 1)
  | .ok res => ((float64 res.ElectricLevel, none), fetches + 1)

/-- Modelled from the spec: the configuration block `batteryCapacity`, declared outside the
two files; it carries the capacity value. -/
structure batteryCapacity where
  Capacity : Float64
  deriving DecidableEq

/-- Modelled from the spec: the configuration block `batterySocLimits`, declared outside the
two files; it carries the SoC operating limits. -/
structure batterySocLimits where
  MinSoc : Float64
  MaxSoc : Float64
  deriving DecidableEq

/-- Modelled from the spec: the configuration block `batteryPowerLimits`, declared outside
the two files; it carries the power operating limits. -/
structure batteryPowerLimits where
  MaxChargePower : Float64
  MaxDischargePower : Float64
  deriving DecidableEq

/-- Modelled from the spec: the method `batteryCapacity.Decorator`, declared outside the two
files.  The capability function exists exactly when the block was supplied, and it
reports the configured value. -/
def batteryCapacity.Decorator (block : Option batteryCapacity) : Option (Unit → Float64) :=
  block.map (fun b _ => b.Capacity)

/-- Modelled from the spec: the method `batterySocLimits.Decorator`, declared outside the
two files.  The capability function exists exactly when the block was supplied. -/
def batterySocLimits.Decorator (block : Option batterySocLimits) :
    Option (Unit → Float64 × Float64) :=
  block.map (fun b _ => (b.MinSoc, b.MaxSoc))

/-- Modelled from the spec: the method `batteryPowerLimits.Decorator`, declared outside the
two files.  The capability function exists exactly when the block was supplied. -/
def batteryPowerLimits.Decorator (block : Option batteryPowerLimits) :
    Option (Unit → Float64 × Float64) :=
  block.map (fun b _ => (b.MaxChargePower, b.MaxDischargePower))

/-- The anonymous struct `cc` of `NewZendureFromConfig`.  The three squashed blocks are
optional: `none` when the configuration does not supply the block. -/
structure Config where
  batteryCapacity : Option batteryCapacity
  batteryPowerLimits : Option batteryPowerLimits
  batterySocLimits : Option batterySocLimits
  Usage : Str
  Account : Str
  Serial : Str
  Region : Str
  Timeout : Nat

/-- The constant `time.Second`, in nanoseconds. -/
def Second : Nat := 1000000000

/-- An object returned as `api.Meter`: the base meter itself, or a composed object that
holds the base meter and the capability functions it was composed with. -/
inductive Meter where
  | base (m : Zendure)
  | composed (m : Zendure) (meterEnergy : Option Reading) (battery : Option Reading)
      (batteryCapacity : Option (Unit → Float64))
      (batterySocLimiter : Option (Unit → Float64 × Float64))
      (batteryPowerLimiter : Option (Unit → Float64 × Float64))
      (batteryController : Option (Nat → Option Error))

/-- Modelled from the spec: the generated function `decorateMeterBattery`, declared outside
the two files.  It wraps the base object together with the capability functions it is
given; a capability is exposed by the result exactly when its function is not nil. -/
def decorateMeterBattery (m : Zendure) (meterEnergy : Option Reading)
    (battery : Option Reading) (batteryCapacity : Option (Unit → Float64))
    (batterySocLimiter : Option (Unit → Float64 × Float64))
    (batteryPowerLimiter : Option (Unit → Float64 × Float64))
    (batteryController : Option (Nat → Option Error)) : Meter :=
  Meter.composed m meterEnergy battery batteryCapacity batterySocLimiter batteryPowerLimiter
    batteryController

/-- The power-reading capability (`api.Meter`), which every object has. -/
def Meter.CurrentPower : Meter → Reading
  | .base m => m.CurrentPower
  | .composed m _ _ _ _ _ _ => m.CurrentPower

/-- The energy capability (`api.MeterEnergy`) of an object, if it has one. -/
def Meter.TotalEnergy : Meter → Option Reading
  | .base _ => none
  | .composed _ meterEnergy _ _ _ _ _ => meterEnergy

/-- The SoC capability (`api.Battery`) of an object, if it has one. -/
def Meter.Soc : Meter → Option Reading
  | .base _ => none
  | .composed _ _ battery _ _ _ _ => battery

/-- The capacity capability (`api.BatteryCapacity`) of an object, if it has one. -/
def Meter.Capacity : Meter → Option (Unit → Float64)
  | .base _ => none
  | .composed _ _ _ batteryCapacity _ _ _ => batteryCapacity

/-- The SoC-limits capability (`api.BatterySocLimiter`) of an object, if it has one. -/
def Meter.GetSocLimits : Meter → Option (Unit → Float64 × Float64)
  | .base _ => none
  | .composed _ _ _ _ batterySocLimiter _ _ => batterySocLimiter

/-- The power-limits capability (`api.BatteryPowerLimiter`) of an object, if it has one. -/
def Meter.GetPowerLimits : Meter → Option (Unit → Float64 × Float64)
  | .base _ => none
  | .composed _ _ _ _ _ batteryPowerLimiter _ => batteryPowerLimiter

/-- The battery-control capability (`api.BatteryController`) of an object, if it has one. -/
def Meter.SetBatteryMode : Meter → Option (Nat → Option Error)
  | .base _ => none
  | .composed _ _ _ _ _ _ batteryController => batteryController

/-- What `NewZendureFromConfig` uses from outside the file: `util.DecodeOther` applied to the
given configuration map (it fills the struct it is handed, or fails),
`zendure.NewConnection`, and `strings.ToUpper`. -/
structure Env where
  DecodeOther : Config → Except Error Config
  NewConnection : Str → Str → Str → Nat → Except Error zendure.Connection
  ToUpper : Str → Str

/-- The initial value of `cc` in `NewZendureFromConfig`: region `EU`, timeout 30 seconds,
everything else zero. -/
def defaultConfig : Config :=
  { batteryCapacity := none, batteryPowerLimits := none, batterySocLimits := none,
    Usage := str "", Account := str "", Serial := str "",
    Region := str "EU", Timeout := 30 * Second }

/-- The function `NewZendureFromConfig`. -/
def NewZendureFromConfig (env : Env) : Except Error Meter :=
  let cc : Config := defaultConfig
  match env.DecodeOther cc with
  | .error err => .error err
  | .ok cc =>
    match env.NewConnection (env.ToUpper cc.Region) cc.Account cc.Serial cc.Timeout with
    | .error err => .error err
    | .ok conn =>
      let m : Zendure := { usage := cc.Usage, conn := conn }
      if cc.Usage = str "battery" then
        .ok (decorateMeterBattery m none (some m.soc)
          (batteryCapacity.Decorator cc.batteryCapacity)
          (batterySocLimits.Decorator cc.batterySocLimits)
          (batteryPowerLimits.Decorator cc.batteryPowerLimits) none)
      else
        .ok (Meter.base m)

/-- A gateway that answers every fetch with the given snapshot. -/
def steadyGateway (res : zendure.TelemetrySnapshot) : zendure.Connection :=
  { Data := fun _ => .ok res }

/-- A gateway whose first fetch fails and whose later fetches succeed. -/
def flakyGateway (res : zendure.TelemetrySnapshot) : zendure.Connection :=
  { Data := fun k => if k = 0 then .error (Error.external 3) else .ok res }

/-- A snapshot: solar 420 W, pack input 100 W, pack output 350 W, charge level 57 %. -/
def sampleSnapshot : zendure.TelemetrySnapshot :=
  { SolarInputPower := 420, PackInputPower := 100, OutputPackPower := 350, ElectricLevel := 57 }

/-- A snapshot whose solar reading `2^53 + 1` is not a binary64 number. -/
def largeSolarSnapshot : zendure.TelemetrySnapshot :=
  { SolarInputPower := 2 ^ 53 + 1, PackInputPower := 0, OutputPackPower := 0,
    ElectricLevel := 0 }

/-- A snapshot with pack input `2^53` and pack output `-1`: both are binary64 numbers,
their difference `2^53 + 1` is not. -/
def largeDifferenceSnapshot : zendure.TelemetrySnapshot :=
  { SolarInputPower := 0, PackInputPower := 2 ^ 53, OutputPackPower := -1,
    ElectricLevel := 0 }

/-- A snapshot with pack input `2^53` and the larger pack output `2^53 + 1`. -/
def largeOutputSnapshot : zendure.TelemetrySnapshot :=
  { SolarInputPower := 0, PackInputPower := 2 ^ 53, OutputPackPower := 2 ^ 53 + 1,
    ElectricLevel := 0 }

/-- The decoded configuration with the usage and the three blocks as given, the rest at
its initial value. -/
def sampleConfig (usage : String) (cap : Option batteryCapacity)
    (soc : Option batterySocLimits) (power : Option batteryPowerLimits) : Config :=
  { defaultConfig with Usage := str usage, batteryCapacity := cap, batterySocLimits := soc,
                       batteryPowerLimits := power }

/-- An environment whose decoder sets the usage and the three blocks as given, and whose
gateway construction succeeds with a steady gateway. -/
def sampleEnv (usage : String) (cap : Option batteryCapacity) (soc : Option batterySocLimits)
    (power : Option batteryPowerLimits) : Env :=
  { DecodeOther := fun cc => .ok
      { cc with Usage := str usage, batteryCapacity := cap, batterySocLimits := soc,
                batteryPowerLimits := power },
    NewConnection := fun _ _ _ _ => .ok (steadyGateway sampleSnapshot),
    ToUpper := fun s => s.map Char.toUpper }

end meter

namespace homeassistant

/-- The domain of an identifier in the words of the specification: the part before its
first `.` separator (the whole identifier when it has no separator). -/
def domainOf (entityID : Str) : Str := entityID.takeWhile (fun c => c != '.')

/-- Two service groups that differ only in the order their service names are visited. -/
def SameGroup (g g' : ServiceDomain) : Prop :=
  g.Domain = g'.Domain ∧ g.Services.Perm g'.Services

/-- The catalog `c'` is a reordering of the catalog `c`: the service names inside the groups
are permuted, and the groups are permuted. -/
def CatalogReordering (c c' : List ServiceDomain) : Prop :=
  ∃ m, List.Forall₂ SameGroup c m ∧ m.Perm c'

/-- The outcome `r'` of the state fetch is a reordering of the outcome `r`: both fail, or
both succeed with the same entities in some order. -/
def StatesReordering : Except Error (List State) → Except Error (List State) → Prop
  | .ok states, .ok states' => states.Perm states'
  | .error _, .error _ => True
  | _, _ => False

end homeassistant

namespace homeassistant

/-- A hub with three entities and two service groups. -/
def sampleConnection : Connection :=
  { GetStates := .ok [⟨str "light.a"⟩, ⟨str "switch.b"⟩, ⟨str "sensor.c"⟩],
    GetServices := .ok [⟨str "light", [str "turn_on"]⟩, ⟨str "climate", [str "set_temp"]⟩] }

/-- The same hub with its state fetch failing. -/
def sampleConnectionNoStates : Connection :=
  { GetStates := .error (Error.external 7),
    GetServices := .ok [⟨str "light", [str "turn_on"]⟩, ⟨str "climate", [str "set_temp"]⟩] }

/-- The same hub with its service fetch failing. -/
def sampleConnectionNoServices : Connection :=
  { GetStates := .ok [⟨str "light.a"⟩, ⟨str "switch.b"⟩, ⟨str "sensor.c"⟩],
    GetServices := .error (Error.external 9) }

/-- The same hub with groups and entities enumerated in another order. -/
def sampleConnectionReordered : Connection :=
  { GetStates := .ok [⟨str "sensor.c"⟩, ⟨str "light.a"⟩, ⟨str "switch.b"⟩],
    GetServices := .ok [⟨str "climate", [str "set_temp"]⟩, ⟨str "light", [str "turn_on"]⟩] }

/-- An environment in which every address already has a scheme and leads to the given hub. -/
def sampleEnv (conn : Connection) : Env :=
  { DefaultScheme := fun uri _ => uri, NewConnection := fun _ => .ok conn }

/-- A request for the hub at `http://hub` with the given `domain` parameter. -/
def sampleRequest (domain : String) : Request :=
  { uri := str "http://hub/", domain := str domain }

end homeassistant

/-! ## The order of Go strings and the sorted key list -/

theorem strLt_irrefl (a : Str) : strLt a a = false := by
  induction a with
  | nil => rfl
  | cons x xs ih => simp [strLt, ih]

theorem strLt_asymm : ∀ (a b : Str), strLt a b = true → strLt b a = false
  | [], [], h => by simp [strLt] at h
  | [], _ :: _, _ => by simp [strLt]
  | _ :: _, [], h => by simp [strLt] at h
  | x :: xs, y :: ys, h => by
    simp only [strLt] at h ⊢
    by_cases hxy : x < y
    · have hyx : ¬ y < x := lt_asymm hxy
      simp [hxy, hyx]
    · by_cases hyx : y < x
      · simp [hxy, hyx] at h
      · simp only [hxy, hyx, if_false] at h ⊢
        exact strLt_asymm xs ys h

theorem strLt_trichotomy : ∀ (a b : Str), strLt a b = true ∨ a = b ∨ strLt b a = true
  | [], [] => Or.inr (Or.inl rfl)
  | [], _ :: _ => Or.inl (by simp [strLt])
  | _ :: _, [] => Or.inr (Or.inr (by simp [strLt]))
  | x :: xs, y :: ys => by
    simp only [strLt]
    rcases lt_trichotomy x y with hxy | hxy | hxy
    · left; simp [hxy]
    · subst hxy
      rcases strLt_trichotomy xs ys with h | h | h
      · left; simp [h]
      · right; left; rw [h]
      · right; right; simp [h]
    · right; right; simp [hxy]

theorem strLt_trans : ∀ (a b c : Str), strLt a b = true → strLt b c = true → strLt a c = true
  | [], _, [], _, h2 => by cases ‹Str› <;> simp [strLt] at h2
  | [], _, _ :: _, _, _ => by simp [strLt]
  | _ :: _, [], _, h1, _ => by simp [strLt] at h1
  | _ :: _, _ :: _, [], _, h2 => by simp [strLt] at h2
  | x :: xs, y :: ys, z :: zs, h1, h2 => by
    simp only [strLt] at h1 h2 ⊢
    by_cases hxy : x < y
    · by_cases hyz : y < z
      · simp [lt_trans hxy hyz]
      · by_cases hzy : z < y
        · simp [hyz, hzy] at h2
        · have hyz' : y = z := le_antisymm (not_lt.mp hzy) (not_lt.mp hyz)
          subst hyz'
          simp [hxy]
    · by_cases hyx : y < x
      · simp [hxy, hyx] at h1
      · have hxy' : x = y := le_antisymm (not_lt.mp hyx) (not_lt.mp hxy)
        subst hxy'
        simp only [hxy, if_false] at h1
        by_cases hxz : x < z
        · simp [hxz]
        · by_cases hzx : z < x
          · simp [hxz, hzx] at h2
          · simp only [hxz, hzx, if_false] at h2 ⊢
            exact strLt_trans xs ys zs h1 h2

theorem strLe_total (a b : Str) : StrLe a b ∨ StrLe b a := by
  unfold StrLe
  cases h : strLt b a
  · exact Or.inl rfl
  · exact Or.inr (strLt_asymm b a h)

theorem strLe_antisymm (a b : Str) (h1 : StrLe a b) (h2 : StrLe b a) : a = b := by
  unfold StrLe at h1 h2
  rcases strLt_trichotomy a b with h | h | h
  · rw [h] at h2; exact absurd h2 (by decide)
  · exact h
  · rw [h] at h1; exact absurd h1 (by decide)

theorem strLe_trans (a b c : Str) (h1 : StrLe a b) (h2 : StrLe b c) : StrLe a c := by
  unfold StrLe at h1 h2 ⊢
  cases hca : strLt c a
  · rfl
  · exfalso
    rcases strLt_trichotomy a b with h | h | h
    · have := strLt_trans c a b hca h
      rw [this] at h2; exact absurd h2 (by decide)
    · subst h; rw [hca] at h2; exact absurd h2 (by decide)
    · rw [h] at h1; exact absurd h1 (by decide)

theorem strLt_of_strLe_of_ne (a b : Str) (h : StrLe a b) (hne : a ≠ b) : strLt a b = true := by
  unfold StrLe at h
  rcases strLt_trichotomy a b with h1 | h1 | h1
  · exact h1
  · exact absurd h1 hne
  · rw [h1] at h; exact absurd h (by decide)

theorem strLe_isTotal : IsTotal Str StrLe := ⟨strLe_total⟩

theorem strLe_isTrans : IsTrans Str StrLe := ⟨strLe_trans⟩

theorem strLe_isAntisymm : IsAntisymm Str StrLe := ⟨strLe_antisymm⟩

theorem sortedKeys_perm (seen : List Str) : (sortedKeys seen).Perm seen :=
  List.perm_insertionSort StrLe seen

theorem sortedKeys_sorted (seen : List Str) : (sortedKeys seen).Sorted StrLe := by
  haveI := strLe_isTotal
  haveI := strLe_isTrans
  exact List.sorted_insertionSort StrLe seen

theorem mem_sortedKeys (seen : List Str) (x : Str) : x ∈ sortedKeys seen ↔ x ∈ seen :=
  (sortedKeys_perm seen).mem_iff

theorem sortedKeys_nodup (seen : List Str) (h : seen.Nodup) : (sortedKeys seen).Nodup :=
  (sortedKeys_perm seen).nodup_iff.mpr h

theorem sortedKeys_strict (seen : List Str) (h : seen.Nodup) :
    (sortedKeys seen).Pairwise (fun a b => strLt a b = true) := by
  have hs : (sortedKeys seen).Pairwise StrLe := sortedKeys_sorted seen
  have hn : (sortedKeys seen).Pairwise (fun a b => a ≠ b) := sortedKeys_nodup seen h
  exact List.Pairwise.imp₂ (fun a b hle hne => strLt_of_strLe_of_ne a b hle hne) hs hn

theorem sortedKeys_congr (s t : List Str) (hs : s.Nodup) (ht : t.Nodup)
    (h : ∀ x, x ∈ s ↔ x ∈ t) : sortedKeys s = sortedKeys t := by
  haveI := strLe_isAntisymm
  have hp : s.Perm t := (List.perm_ext_iff_of_nodup hs ht).mpr h
  have hp2 : (sortedKeys s).Perm (sortedKeys t) :=
    ((sortedKeys_perm s).trans hp).trans (sortedKeys_perm t).symm
  exact List.eq_of_perm_of_sorted hp2 (sortedKeys_sorted s) (sortedKeys_sorted t)

/-! ## Home Assistant discovery -/

namespace homeassistant

theorem Split_ne_nil (s : Str) (sep : Char) : Split s sep ≠ [] := by
  cases s with
  | nil => simp [Split]
  | cons c cs =>
    simp only [Split]
    split
    · simp
    · split <;> simp

theorem Split_intercalate (s : Str) (sep : Char) : [sep].intercalate (Split s sep) = s := by
  induction s with
  | nil => simp [Split, List.intercalate]
  | cons c cs ih =>
    simp only [Split]
    by_cases hc : c = sep
    · simp only [hc, if_true]
      have hne := Split_ne_nil cs sep
      cases hsp : Split cs sep with
      | nil => exact absurd hsp hne
      | cons piece rest =>
        rw [hsp] at ih
        simp only [List.intercalate, List.intersperse, List.flatten] at ih ⊢
        simp [ih]
    · simp only [hc, if_false]
      cases hsp : Split cs sep with
      | nil => exact absurd hsp (Split_ne_nil cs sep)
      | cons piece rest =>
        rw [hsp] at ih
        cases rest with
        | nil =>
          simp only [List.intercalate, List.intersperse, List.flatten] at ih ⊢
          simp [← ih]
        | cons r rs =>
          simp only [List.intercalate, List.intersperse, List.flatten] at ih ⊢
          simp [← ih]

theorem Split_no_sep (s : Str) (sep : Char) : ∀ piece ∈ Split s sep, sep ∉ piece := by
  induction s with
  | nil => simp [Split]
  | cons c cs ih =>
    simp only [Split]
    by_cases hc : c = sep
    · simp only [hc, if_true]
      intro piece hp
      rcases List.mem_cons.mp hp with h | h
      · simp [h]
      · exact ih piece h
    · simp only [hc, if_false]
      cases hsp : Split cs sep with
      | nil => exact absurd hsp (Split_ne_nil cs sep)
      | cons p rest =>
        rw [hsp] at ih
        intro piece hp
        rcases List.mem_cons.mp hp with h | h
        · subst h
          have := ih p (List.mem_cons_self _ _)
          simp only [List.mem_cons, not_or]
          exact ⟨fun h => hc h.symm, this⟩
        · exact ih piece (List.mem_cons_of_mem _ h)

theorem domainsFromRequest_empty (req : Request) (h : req.domain = str "") :
    domainsFromRequest req = [] := by
  simp [domainsFromRequest, h]

theorem domainsFromRequest_filter (req : Request) (h : req.domain ≠ str "") :
    domainsFromRequest req = Split req.domain ',' := by
  simp [domainsFromRequest, h]

theorem domainsFromRequest_ne_nil (req : Request) (h : req.domain ≠ str "") :
    domainsFromRequest req ≠ [] := by
  rw [domainsFromRequest_filter req h]
  exact Split_ne_nil _ _

theorem matchesDomains_nil (entityID : Str) : matchesDomains entityID [] = true := by
  simp [matchesDomains]

theorem matchesDomains_iff (entityID : Str) (domains : List Str) (h : domains ≠ []) :
    matchesDomains entityID domains = true ↔ ∃ d ∈ domains, (d ++ str ".") <+: entityID := by
  have hl : domains.length ≠ 0 := fun h0 => h (List.length_eq_zero.mp h0)
  simp [matchesDomains, hl, HasPrefix, List.isPrefixOf_iff_prefix]

theorem domainOf_cons_dot (cs : Str) : domainOf ('.' :: cs) = [] := by
  simp [domainOf, List.takeWhile_cons]

theorem domainOf_cons_ne (c : Char) (cs : Str) (hc : c ≠ '.') :
    domainOf (c :: cs) = c :: domainOf cs := by
  simp [domainOf, List.takeWhile_cons, hc]

theorem dotted_prefix_iff (d : Str) (hd : '.' ∉ d) :
    ∀ entityID : Str, (d ++ str ".") <+: entityID ↔ ('.' ∈ entityID ∧ domainOf entityID = d) := by
  induction d with
  | nil =>
    intro e
    cases e with
    | nil => simp [str, domainOf]
    | cons c cs =>
      by_cases hc : c = '.'
      · subst hc; simp [str, domainOf_cons_dot, List.cons_prefix_cons]
      · have hc' : ¬ '.' = c := fun h => hc h.symm
        simp [str, domainOf_cons_ne c cs hc, hc, hc', List.cons_prefix_cons]
  | cons x xs ih =>
    intro e
    have hx : x ≠ '.' := fun h => hd (by simp [h])
    have hxs : '.' ∉ xs := fun h => hd (List.mem_cons_of_mem _ h)
    cases e with
    | nil => simp [str, domainOf]
    | cons c cs =>
      have ih' := ih hxs cs
      by_cases hc : c = '.'
      · subst hc
        simp [domainOf_cons_dot, List.cons_prefix_cons, hx]
      · have hc' : ¬ '.' = c := fun h => hc h.symm
        rw [domainOf_cons_ne c cs hc, List.cons_append, List.cons_prefix_cons, ih']
        simp only [List.mem_cons, hc', false_or, List.cons.injEq]
        constructor
        · rintro ⟨h1, h2, h3⟩; exact ⟨h2, h1.symm, h3⟩
        · rintro ⟨h2, h1, h3⟩; exact ⟨h1.symm, h2, h3⟩

theorem foldl_append_filter {α : Type} (p : α → Bool) (f : α → Str) (l : List α) :
    ∀ init : List Str,
      l.foldl (fun result e => if p e then result ++ [f e] else result) init
        = init ++ (l.filter p).map f := by
  induction l with
  | nil => intro init; simp
  | cons a l ih =>
    intro init
    simp only [List.foldl_cons, ih]
    by_cases hp : p a = true
    · simp [hp, List.filter_cons]
    · simp [hp, List.filter_cons]

/-- C2 (as stated, refuted): `matchesDomains` tests whether the identifier starts with a
requested domain followed by `.`, which is not the same as comparing the part before the
first `.`: the identifier `a.b.c` matches the domain `a.b` although the part before its
first separator is `a`, and the identifier `sensor`, which has no separator, does not match
the domain `sensor`. -/
theorem matchesDomains_not_domain_exact :
    (matchesDomains (str "a.b.c") [str "a.b"] = true ∧ domainOf (str "a.b.c") = str "a"
        ∧ str "a" ∉ [str "a.b"])
      ∧ (matchesDomains (str "sensor") [str "sensor"] = false
        ∧ domainOf (str "sensor") ∈ [str "sensor"])
      ∧ ¬ (∀ (entityID : Str) (domains : List Str), domains ≠ [] →
            (matchesDomains entityID domains = true ↔ domainOf entityID ∈ domains)) := by
  refine ⟨by decide, by decide, ?_⟩
  intro h
  have h1 := (h (str "a.b.c") [str "a.b"] (by decide)).mp (by decide)
  revert h1
  decide

/-- C2 (amended): for every identifier and every non-empty list of requested domains none
of which contains a `.`, `matchesDomains` returns true if and only if the identifier has a
`.` separator and the part before its first `.` is equal to one of the requested domains. -/
theorem matchesDomains_domain_exact (entityID : Str) (domains : List Str)
    (hne : domains ≠ []) (hdot : ∀ d ∈ domains, '.' ∉ d) :
    matchesDomains entityID domains = true
      ↔ ('.' ∈ entityID ∧ domainOf entityID ∈ domains) := by
  rw [matchesDomains_iff entityID domains hne]
  constructor
  · rintro ⟨d, hd, hp⟩
    have := (dotted_prefix_iff d (hdot d hd) entityID).mp hp
    exact ⟨this.1, this.2 ▸ hd⟩
  · rintro ⟨h1, h2⟩
    exact ⟨domainOf entityID, h2,
      (dotted_prefix_iff _ (hdot _ h2) entityID).mpr ⟨h1, rfl⟩⟩

/-- C2 (amended), on the identifiers of the specification: `sensor.x` matches `sensor` but
not `sen`, `sensorx.y` does not match `sensor`, `climate.x` matches `climate` but not
`clim`. -/
theorem matchesDomains_domain_exact_witness :
    (matchesDomains (str "sensor.x") [str "sensor"] = true
        ↔ ('.' ∈ str "sensor.x" ∧ domainOf (str "sensor.x") ∈ [str "sensor"]))
      ∧ matchesDomains (str "sensor.x") [str "sensor"] = true
      ∧ matchesDomains (str "sensor.x") [str "sen"] = false
      ∧ matchesDomains (str "sensorx.y") [str "sensor"] = false
      ∧ matchesDomains (str "climate.x") [str "climate"] = true
      ∧ matchesDomains (str "climate.x") [str "clim"] = false :=
  ⟨matchesDomains_domain_exact (str "sensor.x") [str "sensor"] (by decide) (by decide),
    by decide, by decide, by decide, by decide, by decide⟩

/-- C7: when the connection is obtained and the state fetch succeeds, `getEntities` makes
that one hub call and writes exactly the hub's entity identifiers that `matchesDomains`
accepts, in the hub's order, nothing sorted, added or removed otherwise; with an empty
`domain` parameter the list is the hub's full identifier sequence, and otherwise the filter
is the parameter split on commas (comma-free pieces that joined by commas give the
parameter back). -/
theorem getEntities_filtered_in_hub_order (env : Env) (req : Request) (conn : Connection)
    (states : List State) (hconn : connectionFromRequest env req = .ok conn)
    (hst : conn.GetStates = .ok states) :
    getEntities env req
        = (Response.jsonWrite maxAge
            ((states.map State.EntityId).filter
              (fun id => matchesDomains id (domainsFromRequest req))),
            [HubCall.GetStates])
      ∧ (req.domain = str "" →
          (getEntities env req).1 = Response.jsonWrite maxAge (states.map State.EntityId))
      ∧ (req.domain ≠ str "" →
          domainsFromRequest req = Split req.domain ','
            ∧ [','].intercalate (domainsFromRequest req) = req.domain
            ∧ ∀ d ∈ domainsFromRequest req, ',' ∉ d) := by
  have key : getEntities env req
        = (Response.jsonWrite maxAge
            ((states.map State.EntityId).filter
              (fun id => matchesDomains id (domainsFromRequest req))),
            [HubCall.GetStates]) := by
    simp only [getEntities, hconn, hst]
    rw [foldl_append_filter (fun e => matchesDomains e.EntityId (domainsFromRequest req))
      State.EntityId states []]
    simp [List.filter_map, Function.comp_def]
  refine ⟨key, ?_, ?_⟩
  · intro hd
    rw [key, domainsFromRequest_empty req hd]
    simp [matchesDomains_nil]
  · intro hd
    rw [domainsFromRequest_filter req hd]
    exact ⟨rfl, Split_intercalate _ _, Split_no_sep _ _⟩

/-- C7 on a hub with entities `light.a`, `switch.b`, `sensor.c` and the filter
`sensor,light`: the answer is `light.a`, `sensor.c`, in the hub's order. -/
theorem getEntities_filtered_in_hub_order_witness :
    (getEntities (sampleEnv sampleConnection) (sampleRequest "sensor,light")).1
        = Response.jsonWrite maxAge [str "light.a", str "sensor.c"]
      ∧ getEntities (sampleEnv sampleConnection) (sampleRequest "sensor,light")
        = (Response.jsonWrite maxAge
            (([⟨str "light.a"⟩, ⟨str "switch.b"⟩, ⟨str "sensor.c"⟩].map State.EntityId).filter
              (fun id => matchesDomains id (domainsFromRequest (sampleRequest "sensor,light")))),
            [HubCall.GetStates]) :=
  ⟨by decide,
    (getEntities_filtered_in_hub_order (sampleEnv sampleConnection)
      (sampleRequest "sensor,light") sampleConnection
      [⟨str "light.a"⟩, ⟨str "switch.b"⟩, ⟨str "sensor.c"⟩] rfl rfl).1⟩

/-! ### The key set built by `getServices` -/

theorem mem_setKey (seen : List Str) (key x : Str) :
    x ∈ setKey seen key ↔ (x = key ∨ x ∈ seen) := by
  unfold setKey
  split
  · constructor
    · exact Or.inr
    · rintro (h | h)
      · rw [h]; assumption
      · exact h
  · exact List.mem_cons

theorem nodup_setKey (seen : List Str) (key : Str) (h : seen.Nodup) :
    (setKey seen key).Nodup := by
  unfold setKey
  split
  · exact h
  · exact List.nodup_cons.mpr ⟨by assumption, h⟩

theorem mem_foldl_setKey {α : Type} (f : α → Str) (l : List α) :
    ∀ (seen : List Str) (x : Str),
      x ∈ l.foldl (fun seen a => setKey seen (f a)) seen ↔ (x ∈ seen ∨ ∃ a ∈ l, x = f a) := by
  induction l with
  | nil => intro seen x; simp
  | cons a l ih =>
    intro seen x
    rw [List.foldl_cons, ih]
    simp only [mem_setKey, List.mem_cons]
    constructor
    · rintro ((h | h) | ⟨b, hb, h⟩)
      · exact Or.inr ⟨a, Or.inl rfl, h⟩
      · exact Or.inl h
      · exact Or.inr ⟨b, Or.inr hb, h⟩
    · rintro (h | ⟨b, hb | hb, h⟩)
      · exact Or.inl (Or.inr h)
      · subst hb; exact Or.inl (Or.inl h)
      · exact Or.inr ⟨b, hb, h⟩

theorem nodup_foldl_setKey {α : Type} (f : α → Str) (l : List α) :
    ∀ (seen : List Str), seen.Nodup → (l.foldl (fun seen a => setKey seen (f a)) seen).Nodup := by
  induction l with
  | nil => intro seen h; simpa using h
  | cons a l ih =>
    intro seen h
    simp only [List.foldl_cons]
    exact ih _ (nodup_setKey _ _ h)

theorem mem_collectServices (domains : List Str) (svcRes : List ServiceDomain) :
    ∀ (seen : List Str) (x : Str),
      x ∈ collectServices domains svcRes seen ↔
        (x ∈ seen ∨ ∃ sd ∈ svcRes, (domains = [] ∨ sd.Domain ∈ domains)
          ∧ ∃ svc ∈ sd.Services, x = sd.Domain ++ str "." ++ svc) := by
  induction svcRes with
  | nil => intro seen x; simp [collectServices]
  | cons sd rest ih =>
    intro seen x
    have step : collectServices domains (sd :: rest) seen
        = collectServices domains rest
            (if domains.length = 0 ∨ Contains domains sd.Domain = true then
              sd.Services.foldl (fun seen svc => setKey seen (sd.Domain ++ str "." ++ svc)) seen
            else seen) := by
      simp [collectServices]
    rw [step, ih]
    by_cases hc : domains.length = 0 ∨ Contains domains sd.Domain = true
    · have hc' : domains = [] ∨ sd.Domain ∈ domains := by
        simpa [Contains, List.length_eq_zero] using hc
      rw [if_pos hc, mem_foldl_setKey]
      constructor
      · rintro ((h | ⟨svc, hs, h⟩) | ⟨sd', hsd, hd, h⟩)
        · exact Or.inl h
        · exact Or.inr ⟨sd, List.mem_cons_self _ _, hc', svc, hs, h⟩
        · exact Or.inr ⟨sd', List.mem_cons_of_mem _ hsd, hd, h⟩
      · rintro (h | ⟨sd', hsd, hd, h⟩)
        · exact Or.inl (Or.inl h)
        · rcases List.mem_cons.mp hsd with heq | hmem
          · subst heq
            obtain ⟨svc, hs, hx⟩ := h
            exact Or.inl (Or.inr ⟨svc, hs, hx⟩)
          · exact Or.inr ⟨sd', hmem, hd, h⟩
    · have hc' : ¬ (domains = [] ∨ sd.Domain ∈ domains) := by
        simpa [Contains, List.length_eq_zero] using hc
      rw [if_neg hc]
      constructor
      · rintro (h | ⟨sd', hsd, hd, h⟩)
        · exact Or.inl h
        · exact Or.inr ⟨sd', List.mem_cons_of_mem _ hsd, hd, h⟩
      · rintro (h | ⟨sd', hsd, hd, h⟩)
        · exact Or.inl h
        · rcases List.mem_cons.mp hsd with heq | hmem
          · subst heq; exact absurd hd hc'
          · exact Or.inr ⟨sd', hmem, hd, h⟩

theorem nodup_collectServices (domains : List Str) (svcRes : List ServiceDomain) :
    ∀ (seen : List Str), seen.Nodup → (collectServices domains svcRes seen).Nodup := by
  induction svcRes with
  | nil => intro seen h; simpa [collectServices] using h
  | cons sd rest ih =>
    intro seen h
    have step : collectServices domains (sd :: rest) seen
        = collectServices domains rest
            (if domains.length = 0 ∨ Contains domains sd.Domain = true then
              sd.Services.foldl (fun seen svc => setKey seen (sd.Domain ++ str "." ++ svc)) seen
            else seen) := by
      simp [collectServices]
    rw [step]
    apply ih
    split
    · exact nodup_foldl_setKey _ _ _ h
    · exact h

theorem mem_collectStates (domains : List Str) (states : List State) :
    ∀ (seen : List Str) (x : Str),
      x ∈ collectStates domains states seen ↔
        (x ∈ seen ∨ ∃ e ∈ states, e.EntityId = x ∧ matchesDomains x domains = true) := by
  induction states with
  | nil => intro seen x; simp [collectStates]
  | cons e rest ih =>
    intro seen x
    have step : collectStates domains (e :: rest) seen
        = collectStates domains rest
            (if matchesDomains e.EntityId domains then setKey seen e.EntityId else seen) := by
      simp [collectStates]
    rw [step, ih]
    by_cases hm : matchesDomains e.EntityId domains = true
    · rw [if_pos hm]
      simp only [mem_setKey, List.mem_cons]
      constructor
      · rintro ((h | h) | ⟨e', he, h1, h2⟩)
        · exact Or.inr ⟨e, Or.inl rfl, h.symm, h ▸ hm⟩
        · exact Or.inl h
        · exact Or.inr ⟨e', Or.inr he, h1, h2⟩
      · rintro (h | ⟨e', he | he, h1, h2⟩)
        · exact Or.inl (Or.inr h)
        · subst he; exact Or.inl (Or.inl h1.symm)
        · exact Or.inr ⟨e', he, h1, h2⟩
    · rw [if_neg hm]
      simp only [List.mem_cons]
      constructor
      · rintro (h | ⟨e', he, h1, h2⟩)
        · exact Or.inl h
        · exact Or.inr ⟨e', Or.inr he, h1, h2⟩
      · rintro (h | ⟨e', he | he, h1, h2⟩)
        · exact Or.inl h
        · subst he; subst h1; exact absurd h2 hm
        · exact Or.inr ⟨e', he, h1, h2⟩

theorem nodup_collectStates (domains : List Str) (states : List State) :
    ∀ (seen : List Str), seen.Nodup → (collectStates domains states seen).Nodup := by
  induction states with
  | nil => intro seen h; simpa [collectStates] using h
  | cons e rest ih =>
    intro seen h
    have step : collectStates domains (e :: rest) seen
        = collectStates domains rest
            (if matchesDomains e.EntityId domains then setKey seen e.EntityId else seen) := by
      simp [collectStates]
    rw [step]
    apply ih
    split
    · exact nodup_setKey _ _ h
    · exact h

/-! ### The three ways `getServices` succeeds -/

theorem getServices_unfiltered (env : Env) (req : Request) (conn : Connection)
    (svcRes : List ServiceDomain) (hconn : connectionFromRequest env req = .ok conn)
    (hsvc : conn.GetServices = .ok svcRes) (hdom : req.domain = str "") :
    getServices env req
      = (Response.jsonWrite maxAge (sortedKeys (collectServices [] svcRes [])),
          [HubCall.GetServices]) := by
  simp [getServices, hconn, hsvc, domainsFromRequest_empty req hdom]

theorem getServices_filtered (env : Env) (req : Request) (conn : Connection)
    (svcRes : List ServiceDomain) (states : List State)
    (hconn : connectionFromRequest env req = .ok conn)
    (hsvc : conn.GetServices = .ok svcRes) (hst : conn.GetStates = .ok states)
    (hdom : req.domain ≠ str "") :
    getServices env req
      = (Response.jsonWrite maxAge
          (sortedKeys (collectStates (domainsFromRequest req) states
            (collectServices (domainsFromRequest req) svcRes []))),
          [HubCall.GetServices, HubCall.GetStates]) := by
  have hl : 0 < (domainsFromRequest req).length :=
    List.length_pos.mpr (domainsFromRequest_ne_nil req hdom)
  simp [getServices, hconn, hsvc, hst, hl]

theorem getServices_filtered_no_states (env : Env) (req : Request) (conn : Connection)
    (svcRes : List ServiceDomain) (err : Error)
    (hconn : connectionFromRequest env req = .ok conn)
    (hsvc : conn.GetServices = .ok svcRes) (hst : conn.GetStates = .error err)
    (hdom : req.domain ≠ str "") :
    getServices env req
      = (Response.jsonWrite maxAge
          (sortedKeys (collectServices (domainsFromRequest req) svcRes [])),
          [HubCall.GetServices, HubCall.GetStates]) := by
  have hl : 0 < (domainsFromRequest req).length :=
    List.length_pos.mpr (domainsFromRequest_ne_nil req hdom)
  simp [getServices, hconn, hsvc, hst, hl]

/-! ### Reordered catalogs give the same keys -/

theorem serviceKeys_sameGroups (domains : List Str) (x : Str) (c m : List ServiceDomain)
    (h : List.Forall₂ SameGroup c m) :
    (∃ sd ∈ c, (domains = [] ∨ sd.Domain ∈ domains)
        ∧ ∃ svc ∈ sd.Services, x = sd.Domain ++ str "." ++ svc)
      ↔ (∃ sd ∈ m, (domains = [] ∨ sd.Domain ∈ domains)
        ∧ ∃ svc ∈ sd.Services, x = sd.Domain ++ str "." ++ svc) := by
  induction h with
  | nil => simp
  | cons hg _ ih =>
    rename_i a b l₁ l₂
    obtain ⟨hd, hp⟩ := hg
    simp only [List.mem_cons, exists_eq_or_imp, ih, hd, hp.mem_iff]

theorem serviceKeys_reordering (domains : List Str) (x : Str) (c c' : List ServiceDomain)
    (h : CatalogReordering c c') :
    (∃ sd ∈ c, (domains = [] ∨ sd.Domain ∈ domains)
        ∧ ∃ svc ∈ sd.Services, x = sd.Domain ++ str "." ++ svc)
      ↔ (∃ sd ∈ c', (domains = [] ∨ sd.Domain ∈ domains)
        ∧ ∃ svc ∈ sd.Services, x = sd.Domain ++ str "." ++ svc) := by
  obtain ⟨m, hm, hp⟩ := h
  rw [serviceKeys_sameGroups domains x c m hm]
  constructor
  · rintro ⟨sd, hsd, h⟩; exact ⟨sd, hp.mem_iff.mp hsd, h⟩
  · rintro ⟨sd, hsd, h⟩; exact ⟨sd, hp.mem_iff.mpr hsd, h⟩

theorem collectServices_reordering (domains : List Str) (c c' : List ServiceDomain)
    (h : CatalogReordering c c') :
    sortedKeys (collectServices domains c []) = sortedKeys (collectServices domains c' []) := by
  apply sortedKeys_congr
  · exact nodup_collectServices _ _ _ List.nodup_nil
  · exact nodup_collectServices _ _ _ List.nodup_nil
  · intro x
    rw [mem_collectServices, mem_collectServices, serviceKeys_reordering domains x c c' h]

theorem collectStates_reordering (domains : List Str) (c c' : List ServiceDomain)
    (states states' : List State) (h : CatalogReordering c c') (hs : states.Perm states') :
    sortedKeys (collectStates domains states (collectServices domains c []))
      = sortedKeys (collectStates domains states' (collectServices domains c' [])) := by
  apply sortedKeys_congr
  · exact nodup_collectStates _ _ _ (nodup_collectServices _ _ _ List.nodup_nil)
  · exact nodup_collectStates _ _ _ (nodup_collectServices _ _ _ List.nodup_nil)
  · intro x
    rw [mem_collectStates, mem_collectStates, mem_collectServices, mem_collectServices,
      serviceKeys_reordering domains x c c' h]
    constructor
    · rintro (h1 | ⟨e, he, h2⟩)
      · exact Or.inl h1
      · exact Or.inr ⟨e, hs.mem_iff.mp he, h2⟩
    · rintro (h1 | ⟨e, he, h2⟩)
      · exact Or.inl h1
      · exact Or.inr ⟨e, hs.mem_iff.mpr he, h2⟩

theorem getServices_data (env : Env) (req : Request) (conn : Connection)
    (svcRes : List ServiceDomain) (hconn : connectionFromRequest env req = .ok conn)
    (hsvc : conn.GetServices = .ok svcRes) :
    ∃ seen : List Str, seen.Nodup
      ∧ (getServices env req).1 = Response.jsonWrite maxAge (sortedKeys seen) := by
  by_cases hdom : req.domain = str ""
  · exact ⟨_, nodup_collectServices _ _ _ List.nodup_nil,
      by rw [getServices_unfiltered env req conn svcRes hconn hsvc hdom]⟩
  · cases hst : conn.GetStates with
    | ok states =>
      exact ⟨_, nodup_collectStates _ _ _ (nodup_collectServices _ _ _ List.nodup_nil),
        by rw [getServices_filtered env req conn svcRes states hconn hsvc hst hdom]⟩
    | error err =>
      exact ⟨_, nodup_collectServices _ _ _ List.nodup_nil,
        by rw [getServices_filtered_no_states env req conn svcRes err hconn hsvc hst hdom]⟩

/-- C3: when the connection is obtained and the service fetch succeeds, `getServices`
writes a list that is strictly ascending in the order of Go strings (so sorted and without
duplicates), and every request with the same `domain` parameter against a hub whose service
groups, service names inside the groups, and entities are reordered writes the same list. -/
theorem getServices_sorted_and_order_independent (env : Env) (req : Request)
    (conn : Connection) (svcRes : List ServiceDomain)
    (hconn : connectionFromRequest env req = .ok conn)
    (hsvc : conn.GetServices = .ok svcRes) :
    ∃ data : List Str,
      (getServices env req).1 = Response.jsonWrite maxAge data
        ∧ data.Pairwise (fun a b => strLt a b = true)
        ∧ data.Sorted StrLe ∧ data.Nodup
        ∧ ∀ (env' : Env) (req' : Request) (conn' : Connection) (svcRes' : List ServiceDomain),
            req'.domain = req.domain →
            connectionFromRequest env' req' = .ok conn' →
            conn'.GetServices = .ok svcRes' →
            CatalogReordering svcRes svcRes' →
            StatesReordering conn.GetStates conn'.GetStates →
            (getServices env' req').1 = Response.jsonWrite maxAge data := by
  obtain ⟨seen, hnd, hdata⟩ := getServices_data env req conn svcRes hconn hsvc
  refine ⟨sortedKeys seen, hdata, sortedKeys_strict seen hnd, sortedKeys_sorted seen,
    sortedKeys_nodup seen hnd, ?_⟩
  intro env' req' conn' svcRes' hreq hconn' hsvc' hcat hstates
  have hdoms : domainsFromRequest req' = domainsFromRequest req := by
    simp [domainsFromRequest, hreq]
  rw [← hdata]
  by_cases hdom : req.domain = str ""
  · rw [getServices_unfiltered env req conn svcRes hconn hsvc hdom,
      getServices_unfiltered env' req' conn' svcRes' hconn' hsvc' (hreq.trans hdom)]
    simp only [Response.jsonWrite.injEq, true_and]
    exact (collectServices_reordering [] svcRes svcRes' hcat).symm
  · have hdom' : req'.domain ≠ str "" := fun h => hdom (hreq.symm.trans h)
    cases hst : conn.GetStates with
    | ok states =>
      cases hst' : conn'.GetStates with
      | ok states' =>
        rw [hst, hst'] at hstates
        rw [getServices_filtered env req conn svcRes states hconn hsvc hst hdom,
          getServices_filtered env' req' conn' svcRes' states' hconn' hsvc' hst' hdom', hdoms]
        simp only [Response.jsonWrite.injEq, true_and]
        exact (collectStates_reordering _ svcRes svcRes' states states' hcat hstates).symm
      | error err' =>
        rw [hst, hst'] at hstates
        exact absurd hstates (by simp [StatesReordering])
    | error err =>
      cases hst' : conn'.GetStates with
      | ok states' =>
        rw [hst, hst'] at hstates
        exact absurd hstates (by simp [StatesReordering])
      | error err' =>
        rw [getServices_filtered_no_states env req conn svcRes err hconn hsvc hst hdom,
          getServices_filtered_no_states env' req' conn' svcRes' err' hconn' hsvc' hst' hdom',
          hdoms]
        simp only [Response.jsonWrite.injEq, true_and]
        exact (collectServices_reordering _ svcRes svcRes' hcat).symm

/-- C3 on the sample hub: the answer to the filter `light,switch` is strictly ascending, and
the hub that enumerates groups and entities in another order gives the same answer. -/
theorem getServices_sorted_and_order_independent_witness :
    ∃ data : List Str,
      (getServices (sampleEnv sampleConnection) (sampleRequest "light,switch")).1
          = Response.jsonWrite maxAge data
        ∧ data.Pairwise (fun a b => strLt a b = true)
        ∧ data.Sorted StrLe ∧ data.Nodup
        ∧ CatalogReordering
            [⟨str "light", [str "turn_on"]⟩, ⟨str "climate", [str "set_temp"]⟩]
            [⟨str "climate", [str "set_temp"]⟩, ⟨str "light", [str "turn_on"]⟩]
        ∧ StatesReordering sampleConnection.GetStates sampleConnectionReordered.GetStates
        ∧ (getServices (sampleEnv sampleConnectionReordered) (sampleRequest "light,switch")).1
            = Response.jsonWrite maxAge data := by
  have hcat : CatalogReordering
      [⟨str "light", [str "turn_on"]⟩, ⟨str "climate", [str "set_temp"]⟩]
      [⟨str "climate", [str "set_temp"]⟩, ⟨str "light", [str "turn_on"]⟩] :=
    ⟨_, List.Forall₂.cons ⟨rfl, List.Perm.refl _⟩
          (List.Forall₂.cons ⟨rfl, List.Perm.refl _⟩ List.Forall₂.nil),
      List.Perm.swap _ _ _⟩
  have hst : StatesReordering sampleConnection.GetStates sampleConnectionReordered.GetStates := by
    show List.Perm [(⟨str "light.a"⟩ : State), ⟨str "switch.b"⟩, ⟨str "sensor.c"⟩]
      [⟨str "sensor.c"⟩, ⟨str "light.a"⟩, ⟨str "switch.b"⟩]
    exact List.Perm.trans (List.Perm.cons _ (List.Perm.swap _ _ [])) (List.Perm.swap _ _ _)
  obtain ⟨data, h1, h2, h3, h4, h5⟩ :=
    getServices_sorted_and_order_independent (sampleEnv sampleConnection)
      (sampleRequest "light,switch") sampleConnection
      [⟨str "light", [str "turn_on"]⟩, ⟨str "climate", [str "set_temp"]⟩] rfl rfl
  exact ⟨data, h1, h2, h3, h4, hcat, hst,
    h5 (sampleEnv sampleConnectionReordered) (sampleRequest "light,switch")
      sampleConnectionReordered _ rfl rfl rfl hcat hst⟩

/-- C4: with a non-empty `domain` parameter and both hub fetches succeeding, a string is
in the list `getServices` writes if and only if it is `domain.service` for a service name of
a catalog group whose domain is one of the requested domains, or the identifier of a hub
entity that `matchesDomains` accepts. -/
theorem getServices_filtered_members (env : Env) (req : Request) (conn : Connection)
    (svcRes : List ServiceDomain) (states : List State)
    (hconn : connectionFromRequest env req = .ok conn)
    (hsvc : conn.GetServices = .ok svcRes) (hst : conn.GetStates = .ok states)
    (hdom : req.domain ≠ str "") :
    ∃ data : List Str,
      (getServices env req).1 = Response.jsonWrite maxAge data
        ∧ ∀ x : Str, x ∈ data ↔
            ((∃ sd ∈ svcRes, sd.Domain ∈ domainsFromRequest req
                ∧ ∃ svc ∈ sd.Services, x = sd.Domain ++ str "." ++ svc)
              ∨ (∃ e ∈ states, e.EntityId = x
                  ∧ matchesDomains x (domainsFromRequest req) = true)) := by
  refine ⟨_, by rw [getServices_filtered env req conn svcRes states hconn hsvc hst hdom], ?_⟩
  intro x
  rw [mem_sortedKeys, mem_collectStates, mem_collectServices]
  have hne := domainsFromRequest_ne_nil req hdom
  simp [hne]

/-- C4 on the example of the specification: the filter `light,switch` with the entities
`light.a`, `switch.b`, `sensor.c` and the services `light: turn_on`, `climate: set_temp`
yields exactly `light.a`, `light.turn_on`, `switch.b`. -/
theorem getServices_filtered_members_witness :
    (getServices (sampleEnv sampleConnection) (sampleRequest "light,switch")).1
        = Response.jsonWrite maxAge [str "light.a", str "light.turn_on", str "switch.b"]
      ∧ ∃ data : List Str,
          (getServices (sampleEnv sampleConnection) (sampleRequest "light,switch")).1
              = Response.jsonWrite maxAge data
            ∧ ∀ x : Str, x ∈ data ↔
                ((∃ sd ∈ [(⟨str "light", [str "turn_on"]⟩ : ServiceDomain),
                      ⟨str "climate", [str "set_temp"]⟩],
                    sd.Domain ∈ domainsFromRequest (sampleRequest "light,switch")
                    ∧ ∃ svc ∈ sd.Services, x = sd.Domain ++ str "." ++ svc)
                  ∨ (∃ e ∈ [(⟨str "light.a"⟩ : State), ⟨str "switch.b"⟩, ⟨str "sensor.c"⟩],
                      e.EntityId = x
                      ∧ matchesDomains x (domainsFromRequest (sampleRequest "light,switch"))
                          = true)) :=
  ⟨by decide,
    getServices_filtered_members (sampleEnv sampleConnection) (sampleRequest "light,switch")
      sampleConnection _ _ rfl rfl rfl (by decide)⟩

/-- C5: with the `domain` parameter absent or empty, `getServices` makes the service fetch
as its only hub call (no state fetch), and writes the strictly ascending list whose members
are exactly the strings `domain.service` over all groups of the catalog; any hub with the
same service catalog gets the same answer and the same calls, whatever its state fetch
would return. -/
theorem getServices_unfiltered_skips_states (env : Env) (req : Request) (conn : Connection)
    (svcRes : List ServiceDomain) (hconn : connectionFromRequest env req = .ok conn)
    (hsvc : conn.GetServices = .ok svcRes) (hdom : req.domain = str "") :
    ∃ data : List Str,
      getServices env req = (Response.jsonWrite maxAge data, [HubCall.GetServices])
        ∧ HubCall.GetStates ∉ (getServices env req).2
        ∧ data.Pairwise (fun a b => strLt a b = true)
        ∧ (∀ x : Str, x ∈ data ↔
            ∃ sd ∈ svcRes, ∃ svc ∈ sd.Services, x = sd.Domain ++ str "." ++ svc)
        ∧ ∀ (env' : Env) (req' : Request) (conn' : Connection),
            req'.domain = str "" →
            connectionFromRequest env' req' = .ok conn' →
            conn'.GetServices = .ok svcRes →
            getServices env' req' = (Response.jsonWrite maxAge data, [HubCall.GetServices]) := by
  have key := getServices_unfiltered env req conn svcRes hconn hsvc hdom
  refine ⟨_, key, ?_, ?_, ?_, ?_⟩
  · rw [key]; simp
  · exact sortedKeys_strict _ (nodup_collectServices _ _ _ List.nodup_nil)
  · intro x
    rw [mem_sortedKeys, mem_collectServices]
    simp
  · intro env' req' conn' hdom' hconn' hsvc'
    exact getServices_unfiltered env' req' conn' svcRes hconn' hsvc' hdom'

/-- C5 on the sample hub: without a filter the answer is `climate.set_temp`,
`light.turn_on`, the only call is the service fetch, and the hub whose state fetch fails
answers the same. -/
theorem getServices_unfiltered_skips_states_witness :
    getServices (sampleEnv sampleConnection) (sampleRequest "")
        = (Response.jsonWrite maxAge [str "climate.set_temp", str "light.turn_on"],
            [HubCall.GetServices])
      ∧ getServices (sampleEnv sampleConnectionNoStates) (sampleRequest "")
        = getServices (sampleEnv sampleConnection) (sampleRequest "")
      ∧ ∃ data : List Str,
          getServices (sampleEnv sampleConnection) (sampleRequest "")
              = (Response.jsonWrite maxAge data, [HubCall.GetServices])
            ∧ HubCall.GetStates ∉ (getServices (sampleEnv sampleConnection) (sampleRequest "")).2
            ∧ data.Pairwise (fun a b => strLt a b = true)
            ∧ (∀ x : Str, x ∈ data ↔
                ∃ sd ∈ [(⟨str "light", [str "turn_on"]⟩ : ServiceDomain),
                    ⟨str "climate", [str "set_temp"]⟩],
                  ∃ svc ∈ sd.Services, x = sd.Domain ++ str "." ++ svc)
            ∧ ∀ (env' : Env) (req' : Request) (conn' : Connection),
                req'.domain = str "" →
                connectionFromRequest env' req' = .ok conn' →
                conn'.GetServices
                    = .ok [⟨str "light", [str "turn_on"]⟩, ⟨str "climate", [str "set_temp"]⟩] →
                getServices env' req'
                  = (Response.jsonWrite maxAge data, [HubCall.GetServices]) :=
  ⟨by decide, by decide,
    getServices_unfiltered_skips_states (sampleEnv sampleConnection) (sampleRequest "")
      sampleConnection _ rfl rfl rfl⟩

/-- C6: given a connection was obtained, `getServices` answers with an error exactly when
the service fetch fails, and the answer is then status 400 with that error.  A failing
state fetch does not fail the request: for a non-empty `domain` parameter the answer is the
strictly ascending list of the `domain.service` strings of the requested groups, the same
answer as from a hub with the same services and no entities. -/
theorem getServices_error_iff_services_fail (env : Env) (req : Request) (conn : Connection)
    (hconn : connectionFromRequest env req = .ok conn) :
    ((∃ status err, (getServices env req).1 = Response.jsonError status err)
        ↔ ∃ err, conn.GetServices = .error err)
      ∧ (∀ err, conn.GetServices = .error err →
          (getServices env req).1 = Response.jsonError StatusBadRequest err)
      ∧ (∀ (svcRes : List ServiceDomain) (err : Error),
          conn.GetServices = .ok svcRes → conn.GetStates = .error err →
          req.domain ≠ str "" →
          ∃ data : List Str,
            (getServices env req).1 = Response.jsonWrite maxAge data
              ∧ data.Pairwise (fun a b => strLt a b = true)
              ∧ (∀ x : Str, x ∈ data ↔
                  ∃ sd ∈ svcRes, sd.Domain ∈ domainsFromRequest req
                    ∧ ∃ svc ∈ sd.Services, x = sd.Domain ++ str "." ++ svc)
              ∧ ∀ (env' : Env) (conn' : Connection),
                  connectionFromRequest env' req = .ok conn' →
                  conn'.GetServices = .ok svcRes → conn'.GetStates = .ok [] →
                  (getServices env' req).1 = Response.jsonWrite maxAge data) := by
  have herr : ∀ err, conn.GetServices = .error err →
      (getServices env req).1 = Response.jsonError StatusBadRequest err := by
    intro err h
    simp [getServices, hconn, h]
  refine ⟨?_, herr, ?_⟩
  · constructor
    · rintro ⟨status, err, h⟩
      cases hsvc : conn.GetServices with
      | error e => exact ⟨e, rfl⟩
      | ok svcRes =>
        obtain ⟨seen, _, hdata⟩ := getServices_data env req conn svcRes hconn hsvc
        rw [hdata] at h
        exact absurd h (by simp)
    · rintro ⟨err, h⟩
      exact ⟨StatusBadRequest, err, herr err h⟩
  · intro svcRes err hsvc hst hdom
    have key := getServices_filtered_no_states env req conn svcRes err hconn hsvc hst hdom
    refine ⟨_, by rw [key], ?_, ?_, ?_⟩
    · exact sortedKeys_strict _ (nodup_collectServices _ _ _ List.nodup_nil)
    · intro x
      rw [mem_sortedKeys, mem_collectServices]
      simp [domainsFromRequest_ne_nil req hdom]
    · intro env' conn' hconn' hsvc' hst'
      rw [getServices_filtered env' req conn' svcRes [] hconn' hsvc' hst' hdom]
      simp [collectStates]

/-- C6 on the sample hub: with the service fetch failing the answer is status 400 with the
hub's error; with only the state fetch failing the filter `light,switch` is answered with
`light.turn_on`. -/
theorem getServices_error_iff_services_fail_witness :
    (getServices (sampleEnv sampleConnectionNoServices) (sampleRequest "light,switch")).1
        = Response.jsonError 400 (Error.external 9)
      ∧ (getServices (sampleEnv sampleConnectionNoStates) (sampleRequest "light,switch")).1
        = Response.jsonWrite maxAge [str "light.turn_on"]
      ∧ ((∃ status err,
            (getServices (sampleEnv sampleConnectionNoStates) (sampleRequest "light,switch")).1
              = Response.jsonError status err)
          ↔ ∃ err, sampleConnectionNoStates.GetServices = .error err)
      ∧ (getServices (sampleEnv sampleConnectionNoServices) (sampleRequest "light,switch")).1
        = Response.jsonError StatusBadRequest (Error.external 9) :=
  ⟨by decide, by decide,
    (getServices_error_iff_services_fail (sampleEnv sampleConnectionNoStates)
      (sampleRequest "light,switch") sampleConnectionNoStates rfl).1,
    (getServices_error_iff_services_fail (sampleEnv sampleConnectionNoServices)
      (sampleRequest "light,switch") sampleConnectionNoServices rfl).2.1
      (Error.external 9) rfl⟩

end homeassistant

/-! ## The Zendure meter -/

namespace meter

theorem roundHalfEven_intCast (z : Int) : roundHalfEven (z : ℚ) = z := by
  simp [roundHalfEven]

theorem floor_le_roundHalfEven (s : ℚ) : ⌊s⌋ ≤ roundHalfEven s := by
  unfold roundHalfEven
  simp only
  split_ifs <;> omega

theorem log_nonneg_of_one_le (a : ℚ) (ha : 1 ≤ a) : 0 ≤ Int.log 2 a := by
  rw [Int.log_of_one_le_right 2 ha]
  exact Int.natCast_nonneg _

theorem ulpExponent_of_one_le (a : ℚ) (ha : 1 ≤ a) : ulpExponent a = Int.log 2 a - 52 := by
  have := log_nonneg_of_one_le a ha
  unfold ulpExponent
  omega

theorem two_zpow_log_le (a : ℚ) (ha : 1 ≤ a) : (2 : ℚ) ^ Int.log 2 a ≤ a := by
  have h := Int.zpow_log_le_self (R := ℚ) (b := 2) (by norm_num) (lt_of_lt_of_le one_pos ha)
  simpa using h

theorem roundFloat64_neg_of_le (x : ℚ) (hx : x ≤ -1) : roundFloat64 x < 0 := by
  have hx0 : x ≠ 0 := by linarith
  have hneg : x < 0 := by linarith
  have ha : 1 ≤ |x| := by rw [abs_of_neg hneg]; linarith
  have hlow := two_zpow_log_le |x| ha
  have hpos : (0 : ℚ) < (2 : ℚ) ^ (Int.log 2 |x| - 52) := by positivity
  have hs : (1 : ℚ) ≤ |x| / (2 : ℚ) ^ (Int.log 2 |x| - 52) := by
    rw [le_div_iff₀ hpos, one_mul]
    have h52 : (2 : ℚ) ^ (Int.log 2 |x| - 52) ≤ (2 : ℚ) ^ Int.log 2 |x| :=
      zpow_le_zpow_right₀ (by norm_num) (by omega)
    linarith
  have hq : (1 : Int) ≤ roundHalfEven (|x| / (2 : ℚ) ^ (Int.log 2 |x| - 52)) :=
    le_trans (Int.le_floor.mpr (by simpa using hs)) (floor_le_roundHalfEven _)
  have hq' : (1 : ℚ) ≤ (roundHalfEven (|x| / (2 : ℚ) ^ (Int.log 2 |x| - 52)) : ℚ) := by
    exact_mod_cast hq
  simp only [roundFloat64, hx0, if_false, ulpExponent_of_one_le _ ha, hneg, if_true]
  have : 0 < (roundHalfEven (|x| / (2 : ℚ) ^ (Int.log 2 |x| - 52)) : ℚ) * (2 : ℚ) ^ (Int.log 2 |x| - 52) :=
    mul_pos (by linarith) hpos
  linarith

theorem log_le_of_le_two_pow (a : ℚ) (ha : 1 ≤ a) (n : Nat) (h : a ≤ (2 : ℚ) ^ n) :
    Int.log 2 a ≤ n := by
  have hlow := two_zpow_log_le a ha
  have h2 : (2 : ℚ) ^ Int.log 2 a ≤ (2 : ℚ) ^ (n : Int) := by
    rw [zpow_natCast]; exact le_trans hlow h
  exact (zpow_le_zpow_iff_right₀ (by norm_num : (1 : ℚ) < 2)).mp h2

theorem scaled_natCast_is_int (m : Nat) (hm1 : 1 ≤ m) (hm : m ≤ 2 ^ 53) :
    ∃ z : Int, ((m : ℚ)) / (2 : ℚ) ^ (Int.log 2 (m : ℚ) - 52) = (z : ℚ) := by
  have ha : (1 : ℚ) ≤ (m : ℚ) := by exact_mod_cast hm1
  have hk0 := log_nonneg_of_one_le (m : ℚ) ha
  have hk53 : Int.log 2 (m : ℚ) ≤ 53 := by
    have := log_le_of_le_two_pow (m : ℚ) ha 53 (by exact_mod_cast hm)
    simpa using this
  obtain ⟨j, hj⟩ := Int.eq_ofNat_of_zero_le hk0
  rw [hj] at hk53 ⊢
  have hj53 : j ≤ 53 := by exact_mod_cast hk53
  by_cases hj52 : j ≤ 52
  · refine ⟨(m : Int) * 2 ^ (52 - j), ?_⟩
    have he : ((j : Int) - 52) = -((52 - j : Nat) : Int) := by omega
    rw [he, zpow_neg, zpow_natCast, div_inv_eq_mul]
    push_cast
    rfl
  · have hj' : j = 53 := by omega
    subst hj'
    have hlow := two_zpow_log_le (m : ℚ) ha
    rw [hj] at hlow
    have hm' : (m : ℚ) = 2 ^ 53 := by
      apply le_antisymm
      · exact_mod_cast hm
      · have : ((2 : ℚ) ^ ((53 : Nat) : Int)) = 2 ^ 53 := by norm_num
        rw [this] at hlow
        exact hlow
    refine ⟨2 ^ 52, ?_⟩
    rw [hm']
    norm_num

theorem roundFloat64_intCast (n : Int) (h : |n| ≤ 2 ^ 53) : roundFloat64 (n : ℚ) = (n : ℚ) := by
  by_cases h0 : n = 0
  · simp [roundFloat64, h0]
  have hx0 : (n : ℚ) ≠ 0 := by exact_mod_cast h0
  have habs : |(n : ℚ)| = ((n.natAbs : Nat) : ℚ) := by
    rw [Nat.cast_natAbs, Int.cast_abs]
  have hm1 : 1 ≤ n.natAbs := Int.natAbs_pos.mpr h0
  have hm : n.natAbs ≤ 2 ^ 53 := by
    have : ((n.natAbs : Nat) : Int) ≤ 2 ^ 53 := by rw [← Int.abs_eq_natAbs]; exact h
    exact_mod_cast this
  have ha : (1 : ℚ) ≤ |(n : ℚ)| := by rw [habs]; exact_mod_cast hm1
  obtain ⟨z, hz⟩ := scaled_natCast_is_int n.natAbs hm1 hm
  rw [← habs] at hz
  have hpos : (0 : ℚ) < (2 : ℚ) ^ (Int.log 2 |(n : ℚ)| - 52) := by positivity
  have hback : (z : ℚ) * (2 : ℚ) ^ (Int.log 2 |(n : ℚ)| - 52) = |(n : ℚ)| := by
    rw [← hz, div_mul_cancel₀ _ (ne_of_gt hpos)]
  simp only [roundFloat64, hx0, if_false, ulpExponent_of_one_le _ ha, hz, roundHalfEven_intCast]
  rw [mul_assoc, hback]
  by_cases hneg : (n : ℚ) < 0
  · rw [if_pos hneg, abs_of_neg hneg]; ring
  · rw [if_neg hneg, abs_of_nonneg (not_lt.mp hneg)]; ring

theorem roundFloat64_two_pow_53_succ : roundFloat64 (2 ^ 53 + 1) = 2 ^ 53 := by
  have hlog : Int.log 2 (2 ^ 53 + 1 : ℚ) = 53 := by
    have h1 : (2 ^ 53 + 1 : ℚ) = ((2 ^ 53 + 1 : Nat) : ℚ) := by norm_num
    rw [h1, Int.log_natCast]
    have : Nat.log 2 (2 ^ 53 + 1) = 53 :=
      Nat.log_eq_of_pow_le_of_lt_pow (by norm_num) (by norm_num)
    rw [this]; rfl
  have habs : |(2 ^ 53 + 1 : ℚ)| = 2 ^ 53 + 1 := abs_of_pos (by positivity)
  have hfloor : ⌊((2 ^ 53 + 1 : ℚ)) / 2⌋ = 2 ^ 52 := by
    rw [Int.floor_eq_iff]
    constructor <;> norm_num
  have hq : roundHalfEven ((2 ^ 53 + 1 : ℚ) / 2) = 2 ^ 52 := by
    unfold roundHalfEven
    simp only [hfloor]
    norm_num
  have hx0 : (2 ^ 53 + 1 : ℚ) ≠ 0 := by positivity
  have hnn : ¬ (2 ^ 53 + 1 : ℚ) < 0 := by norm_num
  have hq' : roundHalfEven (9007199254740993 / 2) = 4503599627370496 := by
    have h := hq
    norm_num at h
    exact h
  simp only [roundFloat64, hx0, if_false, habs, ulpExponent, hlog]
  norm_num [hq']

theorem float64_exact (n : Int) (h : |n| ≤ 2 ^ 53) : float64 n = ⟨(n : ℚ)⟩ := by
  unfold float64
  rw [roundFloat64_intCast n h]

theorem Float64.sub_intCast (a b : Int) :
    Float64.sub ⟨(a : ℚ)⟩ ⟨(b : ℚ)⟩ = ⟨roundFloat64 (((a - b : Int)) : ℚ)⟩ := by
  unfold Float64.sub
  push_cast
  rfl

/-- C1 (as stated, refuted): the conversion to `float64` and the float subtraction round.
The solar reading `2^53 + 1` is returned as `2^53`; pack input `2^53` with pack output `-1`
gives `2^53`, not the difference `2^53 + 1`; pack input `2^53` with the larger pack output
`2^53 + 1` gives `0`, which is not negative. -/
theorem CurrentPower_rounds_beyond_two_pow_53 :
    ((Zendure.CurrentPower ⟨str "pv", steadyGateway largeSolarSnapshot⟩ 0).1
          = (⟨2 ^ 53⟩, none)
        ∧ (2 ^ 53 : ℚ) ≠ ((largeSolarSnapshot.SolarInputPower : Int) : ℚ))
      ∧ ((Zendure.CurrentPower ⟨str "battery", steadyGateway largeDifferenceSnapshot⟩ 0).1
          = (⟨2 ^ 53⟩, none)
        ∧ (2 ^ 53 : ℚ) ≠ ((largeDifferenceSnapshot.PackInputPower
              - largeDifferenceSnapshot.OutputPackPower : Int) : ℚ))
      ∧ ((Zendure.CurrentPower ⟨str "battery", steadyGateway largeOutputSnapshot⟩ 0).1
          = (⟨0⟩, none)
        ∧ largeOutputSnapshot.PackInputPower < largeOutputSnapshot.OutputPackPower
        ∧ ¬ (Zendure.CurrentPower ⟨str "battery", steadyGateway largeOutputSnapshot⟩ 0).1.1.val
              < 0) := by
  have hb : str "battery" ≠ str "pv" := by decide
  have hbig : float64 (2 ^ 53 + 1) = ⟨2 ^ 53⟩ := by
    have hc : (((2 ^ 53 + 1 : Int)) : ℚ) = 2 ^ 53 + 1 := by norm_num
    unfold float64
    rw [hc, roundFloat64_two_pow_53_succ]
  have h53 : float64 (2 ^ 53) = ⟨((2 ^ 53 : Int) : ℚ)⟩ := float64_exact _ (by norm_num)
  have hm1 : float64 (-1) = ⟨((-1 : Int) : ℚ)⟩ := float64_exact _ (by norm_num)
  have hpv : (Zendure.CurrentPower ⟨str "pv", steadyGateway largeSolarSnapshot⟩ 0).1
      = (⟨2 ^ 53⟩, none) := by
    simp only [Zendure.CurrentPower, steadyGateway, largeSolarSnapshot, if_true, hbig]
  have hdiff : (Zendure.CurrentPower ⟨str "battery", steadyGateway largeDifferenceSnapshot⟩ 0).1
      = (⟨2 ^ 53⟩, none) := by
    simp only [Zendure.CurrentPower, steadyGateway, largeDifferenceSnapshot, if_neg hb, if_true,
      h53, hm1, Float64.sub_intCast]
    have : (((2 ^ 53 - -1 : Int)) : ℚ) = 2 ^ 53 + 1 := by norm_num
    rw [this, roundFloat64_two_pow_53_succ]
  have hout : (Zendure.CurrentPower ⟨str "battery", steadyGateway largeOutputSnapshot⟩ 0).1
      = (⟨0⟩, none) := by
    simp only [Zendure.CurrentPower, steadyGateway, largeOutputSnapshot, if_neg hb, if_true,
      h53, hbig, Float64.sub]
    have : (((2 ^ 53 : Int) : ℚ)) - 2 ^ 53 = 0 := by norm_num
    rw [this]
    simp [roundFloat64]
  refine ⟨⟨hpv, ?_⟩, ⟨hdiff, ?_⟩, hout, ?_, ?_⟩
  · norm_num [largeSolarSnapshot]
  · norm_num [largeDifferenceSnapshot]
  · norm_num [largeOutputSnapshot]
  · rw [hout]; norm_num

/-- C1 (amended): for every snapshot the gateway returns, `CurrentPower` returns with no
error the `float64` conversion of `SolarInputPower` under usage `pv` and the float
difference of the conversions of `PackInputPower` and `OutputPackPower` under usage
`battery`.  The `pv` result is exactly `SolarInputPower` when that reading has magnitude at
most `2^53`; the `battery` result is exactly `PackInputPower` minus `OutputPackPower` when
both readings and their difference have magnitude at most `2^53`; and the `battery` result
is negative whenever `OutputPackPower` exceeds `PackInputPower` and both readings have
magnitude at most `2^53`. -/
theorem CurrentPower_pv_and_battery (conn : zendure.Connection)
    (res : zendure.TelemetrySnapshot) (fetches : Nat) (h : conn.Data fetches = .ok res) :
    (Zendure.CurrentPower ⟨str "pv", conn⟩ fetches).1 = (float64 res.SolarInputPower, none)
      ∧ (Zendure.CurrentPower ⟨str "battery", conn⟩ fetches).1
        = (Float64.sub (float64 res.PackInputPower) (float64 res.OutputPackPower), none)
      ∧ (|res.SolarInputPower| ≤ 2 ^ 53 →
          (Zendure.CurrentPower ⟨str "pv", conn⟩ fetches).1
            = (⟨((res.SolarInputPower : Int) : ℚ)⟩, none))
      ∧ (|res.PackInputPower| ≤ 2 ^ 53 → |res.OutputPackPower| ≤ 2 ^ 53 →
          |res.PackInputPower - res.OutputPackPower| ≤ 2 ^ 53 →
          (Zendure.CurrentPower ⟨str "battery", conn⟩ fetches).1
            = (⟨((res.PackInputPower - res.OutputPackPower : Int) : ℚ)⟩, none))
      ∧ (|res.PackInputPower| ≤ 2 ^ 53 → |res.OutputPackPower| ≤ 2 ^ 53 →
          res.PackInputPower < res.OutputPackPower →
          (Zendure.CurrentPower ⟨str "battery", conn⟩ fetches).1.1.val < 0) := by
  have hb : str "battery" ≠ str "pv" := by decide
  have hpv : (Zendure.CurrentPower ⟨str "pv", conn⟩ fetches).1
      = (float64 res.SolarInputPower, none) := by
    simp [Zendure.CurrentPower, h]
  have hbat : (Zendure.CurrentPower ⟨str "battery", conn⟩ fetches).1
      = (Float64.sub (float64 res.PackInputPower) (float64 res.OutputPackPower), none) := by
    simp [Zendure.CurrentPower, h, hb]
  refine ⟨hpv, hbat, ?_, ?_, ?_⟩
  · intro hs
    rw [hpv, float64_exact _ hs]
  · intro hi ho hd
    rw [hbat, float64_exact _ hi, float64_exact _ ho, Float64.sub_intCast,
      roundFloat64_intCast _ hd]
  · intro hi ho hlt
    rw [hbat, float64_exact _ hi, float64_exact _ ho, Float64.sub_intCast]
    apply roundFloat64_neg_of_le
    have hneg : res.PackInputPower - res.OutputPackPower ≤ -1 := by omega
    exact_mod_cast hneg

/-- C1 (amended) on the snapshot with solar 420, pack input 100 and pack output 350: the
solar power is 420 and the battery power is -250, which is negative. -/
theorem CurrentPower_pv_and_battery_witness :
    (Zendure.CurrentPower ⟨str "pv", steadyGateway sampleSnapshot⟩ 0).1
        = (⟨((420 : Int) : ℚ)⟩, none)
      ∧ (Zendure.CurrentPower ⟨str "battery", steadyGateway sampleSnapshot⟩ 0).1
        = (⟨(((100 : Int) - 350 : Int) : ℚ)⟩, none)
      ∧ (((100 : Int) - 350 : Int) : ℚ) = -250
      ∧ (Zendure.CurrentPower ⟨str "battery", steadyGateway sampleSnapshot⟩ 0).1.1.val < 0 :=
  ⟨(CurrentPower_pv_and_battery (steadyGateway sampleSnapshot) sampleSnapshot 0 rfl).2.2.1
      (by norm_num [sampleSnapshot]),
    (CurrentPower_pv_and_battery (steadyGateway sampleSnapshot) sampleSnapshot 0 rfl).2.2.2.1
      (by norm_num [sampleSnapshot]) (by norm_num [sampleSnapshot])
      (by norm_num [sampleSnapshot]),
    by norm_num,
    (CurrentPower_pv_and_battery (steadyGateway sampleSnapshot) sampleSnapshot 0 rfl).2.2.2.2
      (by norm_num [sampleSnapshot]) (by norm_num [sampleSnapshot])
      (by norm_num [sampleSnapshot])⟩

/-- C8: for every usage string other than exactly `pv` and `battery` and every snapshot the
gateway returns, `CurrentPower` returns the value 0 and the error with the message
`invalid usage: ` followed by the usage string; and `NewZendureFromConfig` succeeds with
such a usage whenever decoding and connection construction succeed. -/
theorem CurrentPower_invalid_usage (usage : Str) (hpv : usage ≠ str "pv")
    (hbat : usage ≠ str "battery") :
    (∀ (conn : zendure.Connection) (res : zendure.TelemetrySnapshot) (fetches : Nat),
        conn.Data fetches = .ok res →
        Zendure.CurrentPower ⟨usage, conn⟩ fetches
          = ((0, some (Error.text (str "invalid usage: " ++ usage))), fetches + 1))
      ∧ (∀ (env : Env) (cc : Config) (conn : zendure.Connection),
          env.DecodeOther defaultConfig = .ok cc → cc.Usage = usage →
          env.NewConnection (env.ToUpper cc.Region) cc.Account cc.Serial cc.Timeout = .ok conn →
          NewZendureFromConfig env = .ok (Meter.base ⟨usage, conn⟩)) := by
  constructor
  · intro conn res fetches h
    simp [Zendure.CurrentPower, h, hpv, hbat]
  · intro env cc conn hdec husage hconn
    subst husage
    simp [NewZendureFromConfig, hdec, hconn, hbat]

/-- C8 on the usage strings `PV`, `Battery` and the empty string, none of which is
recognized. -/
theorem CurrentPower_invalid_usage_witness :
    (Zendure.CurrentPower ⟨str "PV", steadyGateway sampleSnapshot⟩ 0
        = ((0, some (Error.text (str "invalid usage: PV"))), 1))
      ∧ (Zendure.CurrentPower ⟨str "Battery", steadyGateway sampleSnapshot⟩ 0
        = ((0, some (Error.text (str "invalid usage: Battery"))), 1))
      ∧ (Zendure.CurrentPower ⟨str "", steadyGateway sampleSnapshot⟩ 0
        = ((0, some (Error.text (str "invalid usage: "))), 1))
      ∧ NewZendureFromConfig (sampleEnv "PV" none none none)
        = .ok (Meter.base ⟨str "PV", steadyGateway sampleSnapshot⟩) :=
  ⟨(CurrentPower_invalid_usage (str "PV") (by decide) (by decide)).1
      (steadyGateway sampleSnapshot) sampleSnapshot 0 rfl,
    (CurrentPower_invalid_usage (str "Battery") (by decide) (by decide)).1
      (steadyGateway sampleSnapshot) sampleSnapshot 0 rfl,
    (CurrentPower_invalid_usage (str "") (by decide) (by decide)).1
      (steadyGateway sampleSnapshot) sampleSnapshot 0 rfl,
    (CurrentPower_invalid_usage (str "PV") (by decide) (by decide)).2
      (sampleEnv "PV" none none none) _ (steadyGateway sampleSnapshot) rfl rfl rfl⟩

/-- C9: when the gateway fetch fails, `CurrentPower` (for every usage string) and `soc`
each return the value 0 together with exactly the gateway's error, having made one fetch;
when the fetch succeeds, `soc` returns the snapshot's `ElectricLevel`, converted to
`float64`, with no error (the very number for a level of magnitude up to `2^53`). -/
theorem fetch_failure_returned_unchanged (c : Zendure) (fetches : Nat) :
    (∀ err, c.conn.Data fetches = .error err →
        c.CurrentPower fetches = ((0, some err), fetches + 1)
          ∧ c.soc fetches = ((0, some err), fetches + 1))
      ∧ (∀ res, c.conn.Data fetches = .ok res →
          c.soc fetches = ((float64 res.ElectricLevel, none), fetches + 1)
            ∧ (|res.ElectricLevel| ≤ 2 ^ 53 →
                c.soc fetches = ((⟨((res.ElectricLevel : Int) : ℚ)⟩, none), fetches + 1))) := by
  constructor
  · intro err h
    simp [Zendure.CurrentPower, Zendure.soc, h]
  · intro res h
    have hsoc : c.soc fetches = ((float64 res.ElectricLevel, none), fetches + 1) := by
      simp [Zendure.soc, h]
    refine ⟨hsoc, ?_⟩
    intro hb
    rw [hsoc, float64_exact _ hb]

/-- C9 on a gateway whose first fetch fails and whose second would succeed: the failure is
returned as it is after that one fetch, for a recognized and for an unrecognized usage; on
the second fetch `soc` returns the charge level 57. -/
theorem fetch_failure_returned_unchanged_witness :
    (Zendure.CurrentPower ⟨str "pv", flakyGateway sampleSnapshot⟩ 0
          = ((0, some (Error.external 3)), 1)
        ∧ Zendure.soc ⟨str "pv", flakyGateway sampleSnapshot⟩ 0
          = ((0, some (Error.external 3)), 1))
      ∧ (Zendure.CurrentPower ⟨str "heater", flakyGateway sampleSnapshot⟩ 0
          = ((0, some (Error.external 3)), 1)
        ∧ Zendure.soc ⟨str "heater", flakyGateway sampleSnapshot⟩ 0
          = ((0, some (Error.external 3)), 1))
      ∧ Zendure.soc ⟨str "battery", flakyGateway sampleSnapshot⟩ 1
          = ((⟨((57 : Int) : ℚ)⟩, none), 2) :=
  ⟨(fetch_failure_returned_unchanged ⟨str "pv", flakyGateway sampleSnapshot⟩ 0).1
      (Error.external 3) rfl,
    (fetch_failure_returned_unchanged ⟨str "heater", flakyGateway sampleSnapshot⟩ 0).1
      (Error.external 3) rfl,
    ((fetch_failure_returned_unchanged ⟨str "battery", flakyGateway sampleSnapshot⟩ 1).2
      sampleSnapshot rfl).2 (by norm_num [sampleSnapshot])⟩

/-- C10: when decoding and connection construction succeed, `NewZendureFromConfig` returns
the base meter itself for every usage other than exactly `battery`, an object with the
power reading and no SoC, capacity, limits, energy or control capability; for usage
`battery` it returns an object with the base meter's power reading and a SoC capability
that is the meter's `soc`, and with the capacity, SoC-limits and power-limits capabilities
each present exactly when its configuration block was supplied. -/
theorem NewZendureFromConfig_capabilities (env : Env) (cc : Config)
    (conn : zendure.Connection) (hdec : env.DecodeOther defaultConfig = .ok cc)
    (hconn : env.NewConnection (env.ToUpper cc.Region) cc.Account cc.Serial cc.Timeout
      = .ok conn) :
    (cc.Usage ≠ str "battery" →
        NewZendureFromConfig env = .ok (Meter.base ⟨cc.Usage, conn⟩)
          ∧ (Meter.base ⟨cc.Usage, conn⟩).CurrentPower = Zendure.CurrentPower ⟨cc.Usage, conn⟩
          ∧ (Meter.base ⟨cc.Usage, conn⟩).Soc = none
          ∧ (Meter.base ⟨cc.Usage, conn⟩).Capacity = none
          ∧ (Meter.base ⟨cc.Usage, conn⟩).GetSocLimits = none
          ∧ (Meter.base ⟨cc.Usage, conn⟩).GetPowerLimits = none
          ∧ (Meter.base ⟨cc.Usage, conn⟩).TotalEnergy = none
          ∧ (Meter.base ⟨cc.Usage, conn⟩).SetBatteryMode = none)
      ∧ (cc.Usage = str "battery" →
          ∃ obj : Meter, NewZendureFromConfig env = .ok obj
            ∧ obj ≠ Meter.base ⟨cc.Usage, conn⟩
            ∧ obj.CurrentPower = Zendure.CurrentPower ⟨cc.Usage, conn⟩
            ∧ obj.Soc = some (Zendure.soc ⟨cc.Usage, conn⟩)
            ∧ (obj.Capacity.isSome = true ↔ cc.batteryCapacity.isSome = true)
            ∧ (obj.GetSocLimits.isSome = true ↔ cc.batterySocLimits.isSome = true)
            ∧ (obj.GetPowerLimits.isSome = true ↔ cc.batteryPowerLimits.isSome = true)
            ∧ obj.TotalEnergy = none
            ∧ obj.SetBatteryMode = none) := by
  constructor
  · intro hu
    refine ⟨?_, rfl, rfl, rfl, rfl, rfl, rfl, rfl⟩
    simp [NewZendureFromConfig, hdec, hconn, hu]
  · intro hu
    refine ⟨decorateMeterBattery ⟨cc.Usage, conn⟩ none
        (some (Zendure.soc ⟨cc.Usage, conn⟩))
        (batteryCapacity.Decorator cc.batteryCapacity)
        (batterySocLimits.Decorator cc.batterySocLimits)
        (batteryPowerLimits.Decorator cc.batteryPowerLimits) none,
      ?_, ?_, rfl, rfl, ?_, ?_, ?_, rfl, rfl⟩
    · simp only [NewZendureFromConfig, hdec, hconn]
      rw [if_pos hu]
    · simp [decorateMeterBattery]
    · simp [decorateMeterBattery, Meter.Capacity, batteryCapacity.Decorator]
    · simp [decorateMeterBattery, Meter.GetSocLimits, batterySocLimits.Decorator]
    · simp [decorateMeterBattery, Meter.GetPowerLimits, batteryPowerLimits.Decorator]

/-- C10 on two configurations: usage `battery` with a capacity block and a power-limits
block but no SoC-limits block gives an object with SoC, capacity and power limits and
without SoC limits; usage `pv` with all three blocks gives the base meter. -/
theorem NewZendureFromConfig_capabilities_witness :
    (∃ obj : Meter,
        NewZendureFromConfig (sampleEnv "battery" (some ⟨⟨5⟩⟩) none (some ⟨⟨800⟩, ⟨1200⟩⟩)) = .ok obj
          ∧ obj ≠ Meter.base ⟨str "battery", steadyGateway sampleSnapshot⟩
          ∧ obj.CurrentPower
              = Zendure.CurrentPower ⟨str "battery", steadyGateway sampleSnapshot⟩
          ∧ obj.Soc = some (Zendure.soc ⟨str "battery", steadyGateway sampleSnapshot⟩)
          ∧ (obj.Capacity.isSome = true ↔ (some (⟨⟨5⟩⟩ : batteryCapacity)).isSome = true)
          ∧ (obj.GetSocLimits.isSome = true ↔ (none : Option batterySocLimits).isSome = true)
          ∧ (obj.GetPowerLimits.isSome = true
              ↔ (some (⟨⟨800⟩, ⟨1200⟩⟩ : batteryPowerLimits)).isSome = true)
          ∧ obj.TotalEnergy = none
          ∧ obj.SetBatteryMode = none)
      ∧ NewZendureFromConfig (sampleEnv "pv" (some ⟨⟨5⟩⟩) (some ⟨⟨10⟩, ⟨90⟩⟩) (some ⟨⟨800⟩, ⟨1200⟩⟩))
          = .ok (Meter.base ⟨str "pv", steadyGateway sampleSnapshot⟩) :=
  ⟨(NewZendureFromConfig_capabilities (sampleEnv "battery" (some ⟨⟨5⟩⟩) none (some ⟨⟨800⟩, ⟨1200⟩⟩))
      (sampleConfig "battery" (some ⟨⟨5⟩⟩) none (some ⟨⟨800⟩, ⟨1200⟩⟩))
      (steadyGateway sampleSnapshot) rfl rfl).2 rfl,
    ((NewZendureFromConfig_capabilities
      (sampleEnv "pv" (some ⟨⟨5⟩⟩) (some ⟨⟨10⟩, ⟨90⟩⟩) (some ⟨⟨800⟩, ⟨1200⟩⟩))
      (sampleConfig "pv" (some ⟨⟨5⟩⟩) (some ⟨⟨10⟩, ⟨90⟩⟩) (some ⟨⟨800⟩, ⟨1200⟩⟩))
      (steadyGateway sampleSnapshot) rfl rfl).1 (by decide)).1⟩

end meter

end Evcc
